import Mathlib

/-!
Verification development for the ESP32 sensor-node firmware
(`src/main.cpp`).  The definitions below are a shallow embedding of the
firmware's store-and-forward telemetry pipeline, credential store,
configuration store, control-channel handler, telemetry scheduler and
liveness watchdog.  External effects (HTTP requests, the SD card, wall
clock time) are passed in explicitly as oracles/state so that every
definition is executable.
-/

/-! ## Timing and validation constants (main.cpp lines 34-48) -/

def WATCHDOG_TIMEOUT : Nat := 3000

def SD_OPERATION_TIMEOUT : Nat := 5000

def MAX_WIFI_NETWORKS_SAVED : Nat := 5

def MIN_UPDATE_INTERVAL : Int := 1

def MAX_UPDATE_INTERVAL : Int := 86400

/-! ## Character-list string helpers

The firmware uses Arduino `String` operations (`indexOf`, `endsWith`,
`replace`, `trim`, `readStringUntil`).  They are modelled here by
structurally recursive functions over `String.data`.
-/

/-- Model of `String::indexOf(needle) >= 0` restricted to the prefix test:
`needle` occurs at the start of `hay`. -/
def isPrefixB : List Char → List Char → Bool
  | [], _ => true
  | _ :: _, [] => false
  | a :: as, b :: bs => a == b && isPrefixB as bs

/-- Model of `hay.indexOf(needle) >= 0`: `needle` occurs somewhere in `hay`. -/
def containsSeq (needle : List Char) : List Char → Bool
  | [] => isPrefixB needle []
  | c :: cs => isPrefixB needle (c :: cs) || containsSeq needle cs

/-- `resp.indexOf("true") >= 0` (main.cpp lines 236 and 484). -/
def containsTrue (s : String) : Bool := containsSeq "true".data s.data

/-- Model of `filename.endsWith(".txt")` (main.cpp line 201). -/
def endsWithTxt (s : String) : Bool := isPrefixB ".txt".data.reverse s.data.reverse

/-- Model of `file.readStringUntil('\n')` on a file whose full content is
`s`: everything up to (excluding) the first newline (main.cpp line 206). -/
def firstLine (s : String) : String := ⟨s.data.takeWhile (fun c => c != '\n')⟩

/-- Split at the first comma, as `content.indexOf(',')` followed by the two
`substring` calls (main.cpp lines 209-216); `none` when there is no comma. -/
def splitCommaCh : List Char → Option (List Char × List Char)
  | [] => none
  | c :: cs =>
    if c = ',' then some ([], cs)
    else
      match splitCommaCh cs with
      | none => none
      | some (a, b) => some (c :: a, b)

def splitComma (s : String) : Option (String × String) :=
  match splitCommaCh s.data with
  | none => none
  | some (a, b) => some (⟨a⟩, ⟨b⟩)

/-- `url.replace(" ", "%20")` (main.cpp lines 223 and 465). -/
def escSpaces : List Char → List Char
  | [] => []
  | c :: cs => if c = ' ' then '%' :: '2' :: '0' :: escSpaces cs else c :: escSpaces cs

def pctEncodeSpaces (s : String) : String := ⟨escSpaces s.data⟩

/-- Characters removed from the timestamp when deriving the queue filename:
`filename.replace(" ", ""); filename.replace("-", ""); filename.replace(":", "")`
(main.cpp lines 153-155). -/
def keepFilenameCh (c : Char) : Bool := !(c == ' ' || c == '-' || c == ':')

/-- `isspace` characters trimmed by Arduino `String::trim()`
(main.cpp lines 675-676). -/
def isSpaceCh (c : Char) : Bool :=
  c == ' ' || c == '\t' || c == '\n' || c == '\x0b' || c == '\x0c' || c == '\r'

/-- Model of Arduino `String::trim()`: strip `isspace` characters from both
ends. -/
def strTrim (s : String) : String :=
  ⟨((s.data.dropWhile isSpaceCh).reverse.dropWhile isSpaceCh).reverse⟩

/-! ## HTTP delivery model (main.cpp lines 218-236 and 462-484)

The network is an oracle `http : String → HttpResp` mapping the request
URL to the response the firmware observes; timeouts and transport errors
show up as non-200 codes, exactly as `HTTPClient::GET` reports them.
-/

structure HttpResp where
  code : Int
  body : String
deriving DecidableEq

/-- The firmware's success criterion
`code == 200 && resp.indexOf("true") >= 0` (main.cpp lines 236, 484). -/
def httpOk (r : HttpResp) : Bool := r.code == 200 && containsTrue r.body

/-- The delivery URL
`API_URL + "?device_code=" + DEVICE_ID + "&field1=" + val + "&timestamp=" + ts`
with spaces percent-encoded (main.cpp lines 218-223 and 463-465). -/
def buildUrl (apiUrl devId val ts : String) : String :=
  pctEncodeSpaces (apiUrl ++ "?device_code=" ++ devId ++ "&field1=" ++ val ++ "&timestamp=" ++ ts)

/-! ## Durable queue on the SD card -/

/-- One file on the SD card: its name and full content. -/
structure SDFile where
  name : String
  content : String
deriving DecidableEq

/-- SD-card state: whether `setupSD` succeeded, whether `SD.open` succeeds
for a write, and the files present (in storage enumeration order). -/
structure SDState where
  ready : Bool
  openOk : Bool
  files : List SDFile
deriving DecidableEq

/-- Queue filename derived from the timestamp
(main.cpp lines 152-156): `"/" + timestamp` with `' '`, `'-'`, `':'`
removed, plus `".txt"`. -/
def offlineFilename (timestamp : String) : String :=
  ⟨'/' :: timestamp.data.filter keepFilenameCh ++ ".txt".data⟩

/-- The single line written to a queue file:
`timestamp`, `","`, `sensorData`, `"\n"` (main.cpp lines 164-167). -/
def queueFileFor (timestamp sensorData : String) : SDFile :=
  ⟨offlineFilename timestamp, timestamp ++ "," ++ sensorData ++ "\n"⟩

/-- `saveDataOffline(timestamp, sensorData)` (main.cpp lines 144-177).
`elapsedW` is `millis() - start` observed at the post-write timeout check
(line 170).  Returns the reported success flag and the new SD state.  Note
the file is written and closed *before* the timeout check, so on the
timeout path the entry exists even though `false` is returned. -/
def saveDataOffline (sd : SDState) (elapsedW : Nat) (timestamp sensorData : String) :
    Bool × SDState :=
  if sd.ready = false then (false, sd)
  else if sd.openOk = false then (false, sd)
  else
    let entry := queueFileFor timestamp sensorData
    let sd' : SDState :=
      ⟨sd.ready, sd.openOk, sd.files.filter (fun f => f.name != entry.name) ++ [entry]⟩
    if elapsedW > SD_OPERATION_TIMEOUT then (false, sd') else (true, sd')

/-! ## Queue drainer (`processOfflineFiles`, main.cpp lines 179-249) -/

structure DrainRes where
  remaining : List SDFile
  delivered : Nat
deriving DecidableEq

/-- The body of the `while (processed < MAX_FILES)` loop of
`processOfflineFiles` (main.cpp lines 190-246).  `files` is the list of
files still to be enumerated by `root.openNextFile()`, `p` the current
value of `processed`, `k` the iteration index, and `elapsed k` the value
of `millis() - start` observed at iteration `k`'s timeout check
(line 194).  Returns the files left on the card and the final `processed`
count (number of successfully uploaded-and-deleted entries). -/
def drainGo (http : String → HttpResp) (elapsed : Nat → Nat) (apiUrl devId : String) :
    List SDFile → Nat → Nat → DrainRes
  | [], p, _ => ⟨[], p⟩
  | f :: rest, p, k =>
    if p ≥ 5 then ⟨f :: rest, p⟩
    else if elapsed k > SD_OPERATION_TIMEOUT then ⟨f :: rest, p⟩
    else if endsWithTxt f.name then
      match splitComma (firstLine f.content) with
      | none =>
        -- no comma separator: `SD.remove(filename); continue;`
        drainGo http elapsed apiUrl devId rest p (k + 1)
      | some (ts, val) =>
        if httpOk (http (buildUrl apiUrl devId val ts)) then
          -- uploaded: `SD.remove(filename); processed++;`
          drainGo http elapsed apiUrl devId rest (p + 1) (k + 1)
        else
          -- `"Upload failed, retry later"; break;`
          ⟨f :: rest, p⟩
    else
      -- not a ".txt" file: skipped, stays on the card
      let r := drainGo http elapsed apiUrl devId rest p (k + 1)
      ⟨f :: r.remaining, r.delivered⟩

/-- `processOfflineFiles()` (main.cpp lines 179-249): returns immediately
unless the SD card is ready and WiFi reports `WL_CONNECTED`
(line 180) and the root directory opens (`rootOk`, line 184). -/
def processOfflineFiles (sdReady wifiConnected rootOk : Bool)
    (http : String → HttpResp) (elapsed : Nat → Nat) (apiUrl devId : String)
    (files : List SDFile) : DrainRes :=
  if sdReady = false then ⟨files, 0⟩
  else if wifiConnected = false then ⟨files, 0⟩
  else if rootOk = false then ⟨files, 0⟩
  else drainGo http elapsed apiUrl devId files 0 0

/-! ## Credential store (`saveNetworkToMemory`, main.cpp lines 312-343) -/

structure WifiNet where
  s : String
  p : String
deriving DecidableEq

/-- The `while (array.size() >= MAX_WIFI_NETWORKS_SAVED) array.remove(0);`
loop (main.cpp lines 331-333): drop oldest-inserted entries from the front
until below capacity. -/
def evictWhileFull : List WifiNet → List WifiNet
  | [] => []
  | x :: xs =>
    if xs.length + 1 ≥ MAX_WIFI_NETWORKS_SAVED then evictWhileFull xs else x :: xs

/-- Overwrite the password of the first entry whose ssid matches
(`obj["p"] = pass; found = true; break;`, main.cpp lines 322-328). -/
def updatePassword (ssid pass : String) : List WifiNet → List WifiNet
  | [] => []
  | c :: cs => if c.s = ssid then ⟨c.s, pass⟩ :: cs else c :: updatePassword ssid pass cs

def hasSsid (nets : List WifiNet) (ssid : String) : Bool :=
  nets.any (fun c => c.s == ssid)

/-- `saveNetworkToMemory(ssid, pass)` (main.cpp lines 312-343), acting on
the deserialized `wifi_db` array.  The resulting list is what is
serialized back to NVS. -/
def saveNetworkToMemory (nets : List WifiNet) (ssid pass : String) : List WifiNet :=
  if ssid.length = 0 then nets
  else if hasSsid nets ssid then updatePassword ssid pass nets
  else evictWhileFull nets ++ [⟨ssid, pass⟩]

/-- The credential-store invariant: bounded by the capacity and ssids
unique. -/
def CredInv (nets : List WifiNet) : Prop :=
  nets.length ≤ MAX_WIFI_NETWORKS_SAVED ∧ (nets.map WifiNet.s).Nodup

/-! ## Telemetry scheduler, clock-aligned mode (main.cpp lines 810-823) -/

/-- `int minInterval = UPDATE_INTERVAL / 60; if (minInterval < 1) minInterval = 1;`
(main.cpp lines 814-815).  `UPDATE_INTERVAL` is validated positive. -/
def minuteIntervalOf (updateInterval : Nat) : Nat :=
  let mi := updateInterval / 60
  if mi < 1 then 1 else mi

/-- One tick of the `UPDATE_MODE == 1` branch (main.cpp lines 811-823).
`nowMin` is `timeinfo.tm_min` when `getLocalTime` succeeds, `none` when it
fails.  `lastMin` models `lastClockMinute`, with `none` standing for the
initial `-1`.  Returns whether `shouldTrigger` was set and the new
`lastClockMinute`. -/
def clockTick (updateInterval : Nat) (lastMin : Option Nat) (nowMin : Option Nat) :
    Bool × Option Nat :=
  match nowMin with
  | none => (false, lastMin)
  | some m =>
    if m % minuteIntervalOf updateInterval = 0 ∧ some m ≠ lastMin then (true, some m)
    else (false, lastMin)

/-- A run of scheduler ticks in clock-aligned mode: the list of
`shouldTrigger` decisions and the final `lastClockMinute`. -/
def clockRun (updateInterval : Nat) : Option Nat → List (Option Nat) → List Bool × Option Nat
  | lastMin, [] => ([], lastMin)
  | lastMin, t :: ts =>
    let s := clockTick updateInterval lastMin t
    let r := clockRun updateInterval s.2 ts
    (s.1 :: r.1, r.2)

/-! ## Liveness watchdog (main.cpp lines 780-786, 529, 452)

`Sess` is the control-channel session state shared between the loop and
the BLE callbacks: `deviceConnected`, `watchdogPaused` and
`lastWatchdogTime`.  Time is a monotone `Nat` (`millis()`), always at
least `last`.
-/

structure Sess where
  connected : Bool
  paused : Bool
  last : Nat
deriving DecidableEq

/-- The watchdog condition of loop step 1 (main.cpp lines 782-783):
`deviceConnected && !watchdogPaused && (millis() - lastWatchdogTime > WATCHDOG_TIMEOUT)`. -/
def watchdogFires (connected paused : Bool) (now last : Nat) : Bool :=
  connected && !paused && decide (now - last > WATCHDOG_TIMEOUT)

/-- One pass of loop step 1 at time `now`: on a fired watchdog the server
forcibly disconnects the session (main.cpp line 785). -/
def tickW (s : Sess) (now : Nat) : Sess :=
  if watchdogFires s.connected s.paused now s.last then ⟨false, s.paused, s.last⟩ else s

/-- Events touching the watchdog state, each carrying its `millis()` time:
an inbound BLE message (`onWrite`, main.cpp line 529), a telemetry send
with valid sensor data (`sendSensorData`, main.cpp line 452), and a
watchdog check by the loop (main.cpp lines 782-786). -/
inductive WEvent
  | inbound (t : Nat)
  | telemetry (t : Nat)
  | tick (t : Nat)
deriving DecidableEq

def stepEv (s : Sess) : WEvent → Sess
  | .inbound t => ⟨s.connected, s.paused, t⟩
  | .telemetry t => ⟨s.connected, s.paused, t⟩
  | .tick t => tickW s t

def runEvs (s : Sess) (evs : List WEvent) : Sess := evs.foldl stepEv s

def isInbound : WEvent → Bool
  | .inbound _ => true
  | _ => false

def hasInbound (evs : List WEvent) : Bool := evs.any isInbound

/-- Rounds of activity: each round is one telemetry fire at `r.1` followed
by the loop's watchdog checks at the times in `r.2`. -/
def roundEvents : List (Nat × List Nat) → List WEvent
  | [] => []
  | r :: rs => WEvent.telemetry r.1 :: (r.2.map WEvent.tick ++ roundEvents rs)

/-! ## Delivery pipeline (`sendSensorData`, main.cpp lines 419-490) -/

/-- The spec's (§4.5) delivery outcomes, mapped onto the code paths of
`sendSensorData`: the success branch of line 484, the
`saveDataOffline = true` path, and the `saveDataOffline = false` path. -/
inductive Outcome
  | Delivered
  | QueuedOffline
  | Lost
deriving DecidableEq

structure SendRes where
  outcome : Option Outcome
  sd : SDState
  lastW : Nat
deriving DecidableEq

/-- `sendSensorData()` from the point where the Modbus read produced
`sensorData` (main.cpp lines 426-489).  An empty `sensorData` is exactly
the failed-read case (line 440) and skips the cycle.  `elapsedW` is the
timing input of the inner `saveDataOffline`, `lastWatchdog`/`now` the
watchdog timestamp before the call and the current `millis()`
(line 452). -/
def sendSensorData (http : String → HttpResp) (apiUrl devId : String)
    (sensorData timeStr : String) (sd : SDState) (elapsedW : Nat)
    (lastWatchdog now : Nat) : SendRes :=
  if sensorData.length = 0 then ⟨none, sd, lastWatchdog⟩
  else
    let resp := http (buildUrl apiUrl devId sensorData timeStr)
    if httpOk resp then ⟨some Outcome.Delivered, sd, now⟩
    else
      let r := saveDataOffline sd elapsedW timeStr sensorData
      ⟨some (if r.1 then Outcome.QueuedOffline else Outcome.Lost), r.2, now⟩

/-! ## Configuration store and control-channel handler -/

/-- `validateInterval` (main.cpp lines 114-116). -/
def validateInterval (i : Int) : Bool :=
  decide (MIN_UPDATE_INTERVAL ≤ i ∧ i ≤ MAX_UPDATE_INTERVAL)

/-- `validateSetpoint` (main.cpp lines 118-120); floating-point setpoints
are modelled as rationals. -/
def validateSetpoint (v : ℚ) : Bool := decide (-9999 ≤ v ∧ v ≤ 9999)

/-- The device configuration globals (main.cpp lines 69-89). -/
structure Config where
  nickname : String
  deviceId : String
  apiUrl : String
  ntpServer : String
  updateInterval : Int
  updateMode : Int
  setPoint1 : ℚ
  setPoint2 : ℚ
deriving DecidableEq

/-- Built-in defaults (main.cpp lines 69-70, 81, 85-89). -/
def defaultConfig : Config :=
  ⟨"", "ESP_001", "https://cloudbases.in/iot_demo24/Api", "1.in.pool.ntp.org", 60, 0, 0, 0⟩

/-- A parsed JSON document with the optional fields the firmware reads,
used both for the persisted `app_conf` record and for inbound BLE
messages. -/
structure JsonDoc where
  action : Option String
  name : Option String
  id : Option String
  url : Option String
  ntp : Option String
  intv : Option Int
  mode : Option Int
  sp1 : Option ℚ
  sp2 : Option ℚ
  ssid : Option String
  pass : Option String
deriving DecidableEq

/-- A document with every field absent. -/
def emptyDoc : JsonDoc :=
  ⟨none, none, none, none, none, none, none, none, none, none, none⟩

/-- `loadConfig()` (main.cpp lines 252-291) applied to the current config
globals.  `stored` is `none` when the `data` key is missing or fails to
deserialize (in which case every global keeps its value); otherwise each
present field is validated and applied: an invalid interval falls back to
60, an invalid mode to 0, invalid setpoints to 0. -/
def loadConfig (cur : Config) (stored : Option JsonDoc) : Config :=
  match stored with
  | none => cur
  | some d =>
    { cur with
      nickname := d.name.getD cur.nickname
      deviceId := d.id.getD cur.deviceId
      apiUrl := d.url.getD cur.apiUrl
      ntpServer := d.ntp.getD cur.ntpServer
      updateInterval :=
        match d.intv with
        | none => cur.updateInterval
        | some v => if validateInterval v then v else 60
      updateMode :=
        match d.mode with
        | none => cur.updateMode
        | some m => if m = 0 ∨ m = 1 then m else 0
      setPoint1 :=
        match d.sp1 with
        | none => cur.setPoint1
        | some q => if validateSetpoint q then q else 0
      setPoint2 :=
        match d.sp2 with
        | none => cur.setPoint2
        | some q => if validateSetpoint q then q else 0 }

/-- Notifications pushed over the notify characteristic, abstracted from
their serialized form (main.cpp lines 549-568, 578, 627, 644, 654, 663). -/
inductive Notif
  | confResp (c : Config)
  | statusResp (wifiConnected : Bool)
  | wifiErased
  | errInterval
  | errSp1
  | errSp2
  | settingsSaved
  | nameSaved
deriving DecidableEq

/-- `safeNotify` (main.cpp lines 107-112): the notification is emitted only
while a client is connected. -/
def safeNotify (connected : Bool) (n : Notif) : List Notif :=
  if connected then [n] else []

/-- `doc.containsKey(...)` over the recognized configuration fields
(main.cpp lines 590-598). -/
def hasConfigField (d : JsonDoc) : Bool :=
  d.name.isSome || d.id.isSome || d.url.isSome || d.ntp.isSome ||
  d.intv.isSome || d.mode.isSome || d.sp1.isSome || d.sp2.isSome

/-- Accumulator threaded through the configuration-patch branch of
`onWrite`: current config, the `changed` and `nameChanged` flags, and the
notifications emitted so far. -/
structure PatchSt where
  c : Config
  changed : Bool
  nameChanged : Bool
  out : List Notif
deriving DecidableEq

def patchName (d : JsonDoc) (st : PatchSt) : PatchSt :=
  match d.name with
  | some v => ⟨{ st.c with nickname := v }, true, true, st.out⟩
  | none => st

def patchId (d : JsonDoc) (st : PatchSt) : PatchSt :=
  match d.id with
  | some v => ⟨{ st.c with deviceId := v }, true, st.nameChanged, st.out⟩
  | none => st

def patchUrl (d : JsonDoc) (st : PatchSt) : PatchSt :=
  match d.url with
  | some v => ⟨{ st.c with apiUrl := v }, true, st.nameChanged, st.out⟩
  | none => st

def patchNtp (d : JsonDoc) (st : PatchSt) : PatchSt :=
  match d.ntp with
  | some v => ⟨{ st.c with ntpServer := v }, true, st.nameChanged, st.out⟩
  | none => st

/-- The `int` field of a patch (main.cpp lines 621-629): applied when
valid, otherwise rejected with an error notification and the prior value
retained. -/
def patchInt (connected : Bool) (d : JsonDoc) (st : PatchSt) : PatchSt :=
  match d.intv with
  | some v =>
    if validateInterval v then ⟨{ st.c with updateInterval := v }, true, st.nameChanged, st.out⟩
    else ⟨st.c, st.changed, st.nameChanged, st.out ++ safeNotify connected Notif.errInterval⟩
  | none => st

def patchMode (d : JsonDoc) (st : PatchSt) : PatchSt :=
  match d.mode with
  | some m =>
    if m = 0 ∨ m = 1 then ⟨{ st.c with updateMode := m }, true, st.nameChanged, st.out⟩
    else st
  | none => st

def patchSp1 (connected : Bool) (d : JsonDoc) (st : PatchSt) : PatchSt :=
  match d.sp1 with
  | some q =>
    if validateSetpoint q then ⟨{ st.c with setPoint1 := q }, true, st.nameChanged, st.out⟩
    else ⟨st.c, st.changed, st.nameChanged, st.out ++ safeNotify connected Notif.errSp1⟩
  | none => st

def patchSp2 (connected : Bool) (d : JsonDoc) (st : PatchSt) : PatchSt :=
  match d.sp2 with
  | some q =>
    if validateSetpoint q then ⟨{ st.c with setPoint2 := q }, true, st.nameChanged, st.out⟩
    else ⟨st.c, st.changed, st.nameChanged, st.out ++ safeNotify connected Notif.errSp2⟩
  | none => st

/-- The field-by-field configuration patch of `onWrite`
(main.cpp lines 600-656), in source order. -/
def applyPatch (connected : Bool) (d : JsonDoc) (c0 : Config) : PatchSt :=
  patchSp2 connected d (patchSp1 connected d (patchMode d (patchInt connected d
    (patchNtp d (patchUrl d (patchId d (patchName d ⟨c0, false, false, []⟩)))))))

/-- The mutable state read and written by `MyCallbacks::onWrite` and the
main loop's request handling. -/
structure DevState where
  cfg : Config
  savedCfg : Config
  savedNets : List WifiNet
  deviceConnected : Bool
  triggerWifiScan : Bool
  wifiConfigReceived : Bool
  forceHttpNow : Bool
  lastWatchdogTime : Nat
  targetSSID : String
  targetPass : String
deriving DecidableEq

/-- Result of one `onWrite` callback: the new state, the notifications
sent, and whether a restart was scheduled (nickname change). -/
structure OnWriteRes where
  st : DevState
  out : List Notif
  restart : Bool
deriving DecidableEq

/-- An inbound BLE write: empty value, unparseable JSON, or a parsed
document. -/
inductive RawMsg
  | empty
  | malformed
  | parsed (d : JsonDoc)

/-- `MyCallbacks::onWrite` (main.cpp lines 524-683).  `now` is `millis()`
at the callback; `wifiConnected` is the WiFi status consulted by
`get_status`.  Dispatch order follows the source: an `action` field wins,
else any configuration field makes the message a patch, else an `ssid`
field makes it a provisioning request. -/
def onWrite (s0 : DevState) (now : Nat) (wifiConnected : Bool) (m : RawMsg) : OnWriteRes :=
  match m with
  | .empty => ⟨s0, [], false⟩
  | .malformed => ⟨{ s0 with lastWatchdogTime := now }, [], false⟩
  | .parsed d =>
    let s : DevState := { s0 with lastWatchdogTime := now }
    match d.action with
    | some a =>
      if a = "scan" then ⟨{ s with triggerWifiScan := true }, [], false⟩
      else if a = "get_conf" then
        ⟨s, safeNotify s.deviceConnected (Notif.confResp s.cfg), false⟩
      else if a = "get_status" then
        ⟨s, safeNotify s.deviceConnected (Notif.statusResp wifiConnected), false⟩
      else if a = "forget_wifi" then
        ⟨{ s with savedNets := [] },
          if s.deviceConnected then safeNotify s.deviceConnected Notif.wifiErased else [],
          false⟩
      else ⟨s, [], false⟩
    | none =>
      if hasConfigField d then
        let r := applyPatch s.deviceConnected d s.cfg
        if r.changed then
          ⟨{ s with cfg := r.c, savedCfg := r.c, forceHttpNow := true },
            r.out ++ safeNotify s.deviceConnected
              (if r.nameChanged then Notif.nameSaved else Notif.settingsSaved),
            r.nameChanged⟩
        else ⟨{ s with cfg := r.c }, r.out, false⟩
      else
        match d.ssid with
        | some rawSsid =>
          let tS := strTrim rawSsid
          let tP := strTrim (d.pass.getD "")
          if tS.length > 0 then
            ⟨{ s with targetSSID := tS, targetPass := tP, wifiConfigReceived := true },
              [], false⟩
          else
            ⟨{ s with targetSSID := tS, targetPass := tP }, [], false⟩
        | none => ⟨s, [], false⟩

/-- Loop step 5 (main.cpp lines 857-883): a pending provisioning request
triggers a connection attempt; on success the credentials are upserted.
Returns whether an attempt was made and the resulting credential list. -/
def loopWifiConnect (received : Bool) (targetSSID targetPass : String)
    (connectOk : Bool) (nets : List WifiNet) : Bool × List WifiNet :=
  if received then
    if connectOk then (true, saveNetworkToMemory nets targetSSID targetPass)
    else (true, nets)
  else (false, nets)

/-! ## Helper lemmas -/

theorem isPrefixB_append_self (xs ys : List Char) : isPrefixB xs (xs ++ ys) = true := by
  induction xs with
  | nil => rfl
  | cons a as ih => simp [isPrefixB, ih]

theorem strData_append (a b : String) : (a ++ b).data = a.data ++ b.data := rfl

theorem isPrefixB_reverse_append (xs l : List Char) :
    isPrefixB xs.reverse ((l ++ xs).reverse) = true := by
  rw [List.reverse_append]
  exact isPrefixB_append_self _ _

theorem endsWithTxt_offlineFilename (ts : String) :
    endsWithTxt (offlineFilename ts) = true := by
  show isPrefixB ".txt".data.reverse
      ('/' :: (ts.data.filter keepFilenameCh ++ ".txt".data)).reverse = true
  have h : '/' :: (ts.data.filter keepFilenameCh ++ ".txt".data)
      = ('/' :: ts.data.filter keepFilenameCh) ++ ".txt".data := by simp
  rw [h]
  exact isPrefixB_reverse_append _ _

theorem takeWhile_append_of_all (pred : Char → Bool) (l1 l2 : List Char)
    (h : ∀ c ∈ l1, pred c = true) :
    (l1 ++ l2).takeWhile pred = l1 ++ l2.takeWhile pred := by
  induction l1 with
  | nil => simp
  | cons a as ih =>
    have ha := h a (by simp)
    simp [List.takeWhile_cons, ha, ih (fun c hc => h c (by simp [hc]))]

theorem splitCommaCh_append (l1 l2 : List Char)
    (h : ∀ c ∈ l1, (c == ',') = false) :
    splitCommaCh (l1 ++ ',' :: l2) = some (l1, l2) := by
  induction l1 with
  | nil => simp [splitCommaCh]
  | cons a as ih =>
    have ha : ¬ a = ',' := by
      have := h a (by simp)
      simpa using this
    have ih' := ih (fun c hc => h c (by simp [hc]))
    simp [splitCommaCh, if_neg ha, ih']

theorem splitComma_queueLine (ts val : String)
    (hts : ts.data.all (fun c => !(c == ',') && !(c == '\n')) = true)
    (hval : val.data.all (fun c => !(c == '\n')) = true) :
    splitComma (firstLine (ts ++ "," ++ val ++ "\n")) = some (ts, val) := by
  have hdata : (ts ++ "," ++ val ++ "\n").data = ts.data ++ ',' :: (val.data ++ ['\n']) := by
    simp [strData_append]
  have hts' : ∀ c ∈ ts.data, (c == ',') = false ∧ (c == '\n') = false := by
    intro c hc
    have := (List.all_eq_true.mp hts) c hc
    constructor
    · cases hcc : (c == ',') <;> simp_all
    · cases hcc : (c == '\n') <;> simp_all
  have hval' : ∀ c ∈ val.data, (c == '\n') = false := by
    intro c hc
    simpa using (List.all_eq_true.mp hval) c hc
  have hline : firstLine (ts ++ "," ++ val ++ "\n") = ⟨ts.data ++ ',' :: val.data⟩ := by
    show (⟨((ts ++ "," ++ val ++ "\n").data.takeWhile (fun c => c != '\n')) ⟩ : String) = _
    rw [hdata]
    rw [takeWhile_append_of_all _ _ _ (by
      intro c hc
      have := (hts' c hc).2
      simpa using this)]
    congr 1
    have hcomma : (',' != '\n') = true := by decide
    simp only [List.takeWhile_cons, hcomma, if_pos rfl]
    rw [takeWhile_append_of_all _ _ _ (by
      intro c hc
      have := hval' c hc
      simpa using this)]
    simp [List.takeWhile]
  rw [hline]
  show (match splitCommaCh (ts.data ++ ',' :: val.data) with
    | none => none
    | some (a, b) => some ((⟨a⟩ : String), (⟨b⟩ : String))) = some (ts, val)
  rw [splitCommaCh_append _ _ (fun c hc => (hts' c hc).1)]

/-! ## C1: queue drainer, malformed entries and delivery failure -/

/-- C1: For every invocation of the Queue Drainer over a sequence of queue
entries in enumeration order: an entry whose content has no comma
separator is deleted and processing continues with the next entry,
whereas an entry whose delivery attempt fails (non-200 status or body
without the substring `true`) stops the whole batch immediately, leaving
that entry and all subsequent entries untouched for the next
invocation. -/
theorem drainer_malformed_deleted_failure_stops
    (http : String → HttpResp) (elapsed : Nat → Nat) (apiUrl devId : String)
    (f : SDFile) (rest : List SDFile) (p k : Nat)
    (hp : p < 5) (he : elapsed k ≤ SD_OPERATION_TIMEOUT)
    (ht : endsWithTxt f.name = true) :
    (splitComma (firstLine f.content) = none →
      drainGo http elapsed apiUrl devId (f :: rest) p k
        = drainGo http elapsed apiUrl devId rest p (k + 1))
    ∧ (∀ ts val, splitComma (firstLine f.content) = some (ts, val) →
        httpOk (http (buildUrl apiUrl devId val ts)) = false →
        drainGo http elapsed apiUrl devId (f :: rest) p k = ⟨f :: rest, p⟩) := by
  have h5 : ¬ p ≥ 5 := by omega
  have hek : ¬ elapsed k > SD_OPERATION_TIMEOUT := by omega
  constructor
  · intro hnone
    simp [drainGo, h5, hek, ht, hnone]
  · intro ts val hsome hfail
    simp [drainGo, h5, hek, ht, hsome, hfail]

theorem drainer_malformed_deleted_failure_stops_witness :
    drainGo (fun _ => ⟨500, "err"⟩) (fun _ => 0) "https://u" "d"
        [⟨"/m.txt", "nocomma\n"⟩, ⟨"/x.txt", "a,b\n"⟩] 0 0
      = drainGo (fun _ => ⟨500, "err"⟩) (fun _ => 0) "https://u" "d"
        [⟨"/x.txt", "a,b\n"⟩] 0 1
    ∧ drainGo (fun _ => ⟨500, "err"⟩) (fun _ => 0) "https://u" "d"
        [⟨"/f.txt", "a,b\n"⟩, ⟨"/g.txt", "c,d\n"⟩] 0 0
      = ⟨[⟨"/f.txt", "a,b\n"⟩, ⟨"/g.txt", "c,d\n"⟩], 0⟩ := by
  constructor
  · exact (drainer_malformed_deleted_failure_stops (fun _ => ⟨500, "err"⟩) (fun _ => 0)
      "https://u" "d" ⟨"/m.txt", "nocomma\n"⟩ [⟨"/x.txt", "a,b\n"⟩] 0 0
      (by decide) (by decide) (by decide)).1 (by decide)
  · exact (drainer_malformed_deleted_failure_stops (fun _ => ⟨500, "err"⟩) (fun _ => 0)
      "https://u" "d" ⟨"/f.txt", "a,b\n"⟩ [⟨"/g.txt", "c,d\n"⟩] 0 0
      (by decide) (by decide) (by decide)).2 "a" "b" (by decide) (by decide)

/-! ## C6: batch size, time budget, connectivity gate -/

/-- C6 counterexample: the claim says each invocation "processes at most 5
queue entries", but `processed` is incremented only on successful upload;
a batch of six malformed `.txt` entries is entirely deleted (six entries
processed) in a single invocation. -/
theorem drainer_batch_limit_counterexample :
    ([(⟨"/a.txt", "x\n"⟩ : SDFile), ⟨"/b.txt", "x\n"⟩, ⟨"/c.txt", "x\n"⟩,
      ⟨"/d.txt", "x\n"⟩, ⟨"/e.txt", "x\n"⟩, ⟨"/f.txt", "x\n"⟩].length = 6)
    ∧ (processOfflineFiles true true true (fun _ => ⟨500, "err"⟩) (fun _ => 0) "https://u" "d"
        [⟨"/a.txt", "x\n"⟩, ⟨"/b.txt", "x\n"⟩, ⟨"/c.txt", "x\n"⟩,
         ⟨"/d.txt", "x\n"⟩, ⟨"/e.txt", "x\n"⟩, ⟨"/f.txt", "x\n"⟩]).remaining = [] := by
  decide

theorem drainGo_delivered_le (http : String → HttpResp) (elapsed : Nat → Nat)
    (apiUrl devId : String) (files : List SDFile) :
    ∀ p k, p ≤ 5 → (drainGo http elapsed apiUrl devId files p k).delivered ≤ 5 := by
  induction files with
  | nil => intro p k hp; simpa [drainGo] using hp
  | cons f rest ih =>
    intro p k hp
    by_cases h5 : p ≥ 5
    · simpa [drainGo, h5] using hp
    · by_cases he : elapsed k > SD_OPERATION_TIMEOUT
      · simpa [drainGo, h5, he] using hp
      · by_cases ht : endsWithTxt f.name
        · rcases hsc : splitComma (firstLine f.content) with _ | ⟨ts, val⟩
          · simpa [drainGo, h5, he, ht, hsc] using ih p (k + 1) hp
          · by_cases hok : httpOk (http (buildUrl apiUrl devId val ts)) = true
            · simpa [drainGo, h5, he, ht, hsc, hok] using ih (p + 1) (k + 1) (by omega)
            · simp only [Bool.not_eq_true] at hok
              simpa [drainGo, h5, he, ht, hsc, hok] using hp
        · simp only [Bool.not_eq_true] at ht
          simpa [drainGo, h5, he, ht] using ih p (k + 1) hp

/-- C6 (amended): Each invocation of the Queue Drainer successfully
delivers (and deletes) at most 5 queue entries, enumerated in storage
order; malformed entries deleted along the way do not count toward that
batch limit, so more than 5 entries may be removed in one invocation.
The drainer stops early once the elapsed time exceeds the 5-second
budget, leaving the current and all later entries untouched, and it runs
at all only when network connectivity is established. -/
theorem drainer_batch_limit_amended :
    (∀ (http : String → HttpResp) (elapsed : Nat → Nat) (apiUrl devId : String)
        (sdReady rootOk : Bool) (files : List SDFile),
      (processOfflineFiles sdReady true rootOk http elapsed apiUrl devId files).delivered ≤ 5)
    ∧ (∀ (http : String → HttpResp) (elapsed : Nat → Nat) (apiUrl devId : String)
        (sdReady rootOk : Bool) (files : List SDFile),
        processOfflineFiles sdReady false rootOk http elapsed apiUrl devId files = ⟨files, 0⟩)
    ∧ (∀ (http : String → HttpResp) (elapsed : Nat → Nat) (apiUrl devId : String)
        (f : SDFile) (rest : List SDFile) (p k : Nat),
        p < 5 → elapsed k > SD_OPERATION_TIMEOUT →
        drainGo http elapsed apiUrl devId (f :: rest) p k = ⟨f :: rest, p⟩) := by
  refine ⟨?_, ?_, ?_⟩
  · intro http elapsed apiUrl devId sdReady rootOk files
    cases sdReady <;> cases rootOk <;>
      simp [processOfflineFiles, drainGo_delivered_le http elapsed apiUrl devId files 0 0 (by omega)]
  · intro http elapsed apiUrl devId sdReady rootOk files
    cases sdReady <;> simp [processOfflineFiles]
  · intro http elapsed apiUrl devId f rest p k hp he
    have h5 : ¬ p ≥ 5 := by omega
    simp [drainGo, h5, he]

theorem drainer_batch_limit_amended_witness :
    (processOfflineFiles true true true (fun _ => ⟨200, "true"⟩) (fun _ => 0) "https://u" "d"
      [⟨"/a.txt", "t,1\n"⟩]).delivered ≤ 5
    ∧ processOfflineFiles true false true (fun _ => ⟨200, "true"⟩) (fun _ => 0) "https://u" "d"
        [⟨"/a.txt", "t,1\n"⟩] = ⟨[⟨"/a.txt", "t,1\n"⟩], 0⟩
    ∧ drainGo (fun _ => ⟨200, "true"⟩) (fun _ => 6000) "https://u" "d"
        [⟨"/a.txt", "t,1\n"⟩] 0 0 = ⟨[⟨"/a.txt", "t,1\n"⟩], 0⟩ := by
  refine ⟨?_, ?_, ?_⟩
  · exact drainer_batch_limit_amended.1 (fun _ => ⟨200, "true"⟩) (fun _ => 0) "https://u" "d"
      true true [⟨"/a.txt", "t,1\n"⟩]
  · exact drainer_batch_limit_amended.2.1 (fun _ => ⟨200, "true"⟩) (fun _ => 0) "https://u" "d"
      true true [⟨"/a.txt", "t,1\n"⟩]
  · exact drainer_batch_limit_amended.2.2 (fun _ => ⟨200, "true"⟩) (fun _ => 6000) "https://u" "d"
      ⟨"/a.txt", "t,1\n"⟩ [] 0 0 (by decide) (by decide)

/-! ## C10: the timeout path of saveDataOffline leaves a live queue entry -/

/-- C10: When the Durable Queue append reports failure because the write
exceeded the 5-second timeout, the queue entry has nevertheless already
been fully written and closed before the timeout check, so a reading
classified as Lost on this path still exists as a queue entry and can
later be delivered by the Queue Drainer. -/
theorem saveDataOffline_timeout_entry_exists
    (sd : SDState) (elapsedW : Nat) (ts val : String)
    (hr : sd.ready = true) (ho : sd.openOk = true)
    (he : elapsedW > SD_OPERATION_TIMEOUT) :
    (saveDataOffline sd elapsedW ts val).1 = false
    ∧ queueFileFor ts val ∈ (saveDataOffline sd elapsedW ts val).2.files
    ∧ (∀ (http : String → HttpResp) (elapsed : Nat → Nat) (apiUrl devId : String),
        elapsed 0 ≤ SD_OPERATION_TIMEOUT →
        httpOk (http (buildUrl apiUrl devId val ts)) = true →
        ts.data.all (fun c => !(c == ',') && !(c == '\n')) = true →
        val.data.all (fun c => !(c == '\n')) = true →
        drainGo http elapsed apiUrl devId [queueFileFor ts val] 0 0 = ⟨[], 1⟩) := by
  refine ⟨?_, ?_, ?_⟩
  · simp [saveDataOffline, hr, ho, he]
  · simp [saveDataOffline, hr, ho, he]
  · intro http elapsed apiUrl devId hel hok hts hval
    have hek : ¬ elapsed 0 > SD_OPERATION_TIMEOUT := by omega
    have hname : endsWithTxt (queueFileFor ts val).name = true :=
      endsWithTxt_offlineFilename ts
    have hline : splitComma (firstLine (queueFileFor ts val).content) = some (ts, val) :=
      splitComma_queueLine ts val hts hval
    simp [drainGo, hek, hname, hline, hok]

theorem saveDataOffline_timeout_entry_exists_witness :
    (saveDataOffline ⟨true, true, []⟩ 6000 "2025-01-01 10:00:00" "25.4").1 = false
    ∧ queueFileFor "2025-01-01 10:00:00" "25.4"
        ∈ (saveDataOffline ⟨true, true, []⟩ 6000 "2025-01-01 10:00:00" "25.4").2.files
    ∧ drainGo (fun _ => ⟨200, "true"⟩) (fun _ => 0) "https://u" "d"
        [queueFileFor "2025-01-01 10:00:00" "25.4"] 0 0 = ⟨[], 1⟩ := by
  have h := saveDataOffline_timeout_entry_exists ⟨true, true, []⟩ 6000
    "2025-01-01 10:00:00" "25.4" (by decide) (by decide) (by decide)
  exact ⟨h.1, h.2.1,
    h.2.2 (fun _ => ⟨200, "true"⟩) (fun _ => 0) "https://u" "d"
      (by decide) (by decide) (by decide) (by decide)⟩

/-! ## C3: delivery outcome classification -/

theorem saveDataOffline_true_files (sd : SDState) (e : Nat) (ts val : String)
    (h : (saveDataOffline sd e ts val).1 = true) :
    (saveDataOffline sd e ts val).2.files
      = sd.files.filter (fun f => f.name != (queueFileFor ts val).name) ++ [queueFileFor ts val] := by
  by_cases hr : sd.ready = false
  · simp [saveDataOffline, hr] at h
  · by_cases ho : sd.openOk = false
    · simp [saveDataOffline, hr, ho] at h
    · by_cases he : e > SD_OPERATION_TIMEOUT
      · simp [saveDataOffline, hr, ho, he] at h
      · simp [saveDataOffline, hr, ho, he]

/-- C3: For every delivery attempt of a (timestamp, value) reading: the
outcome is Delivered exactly when the HTTP response status is 200 and the
response body contains the literal substring `true`; on any other outcome
a QueuedReading containing the single line `timestamp,value` is appended
to the Durable Queue, and if that append fails or the queue is
unavailable the reading is dropped with no further retry (Lost). -/
theorem sendSensorData_outcomes (http : String → HttpResp) (apiUrl devId : String)
    (data ts : String) (sd : SDState) (e lw now : Nat)
    (hd : data.length ≠ 0) :
    ((sendSensorData http apiUrl devId data ts sd e lw now).outcome = some Outcome.Delivered
      ↔ ((http (buildUrl apiUrl devId data ts)).code = 200
          ∧ containsTrue (http (buildUrl apiUrl devId data ts)).body = true))
    ∧ (httpOk (http (buildUrl apiUrl devId data ts)) = false →
        (sendSensorData http apiUrl devId data ts sd e lw now).sd
          = (saveDataOffline sd e ts data).2
        ∧ ((saveDataOffline sd e ts data).1 = true →
            (sendSensorData http apiUrl devId data ts sd e lw now).outcome
              = some Outcome.QueuedOffline
            ∧ queueFileFor ts data
                ∈ (sendSensorData http apiUrl devId data ts sd e lw now).sd.files)
        ∧ ((saveDataOffline sd e ts data).1 = false →
            (sendSensorData http apiUrl devId data ts sd e lw now).outcome
              = some Outcome.Lost)) := by
  constructor
  · by_cases hok : httpOk (http (buildUrl apiUrl devId data ts)) = true
    · constructor
      · intro _
        have := hok
        simp only [httpOk, Bool.and_eq_true, beq_iff_eq] at this
        exact this
      · intro _
        simp [sendSensorData, hd, hok]
    · constructor
      · intro hdel
        exfalso
        simp only [Bool.not_eq_true] at hok
        by_cases hsave : (saveDataOffline sd e ts data).1 = true
        · simp [sendSensorData, hd, hok, hsave] at hdel
        · simp only [Bool.not_eq_true] at hsave
          simp [sendSensorData, hd, hok, hsave] at hdel
      · intro hcb
        exfalso
        apply hok
        simp [httpOk, hcb.1, hcb.2]
  · intro hfail
    refine ⟨?_, ?_, ?_⟩
    · simp [sendSensorData, hd, hfail]
    · intro hsave
      constructor
      · simp [sendSensorData, hd, hfail, hsave]
      · simp only [sendSensorData, if_neg hd, hfail, Bool.false_eq_true, if_false]
        rw [saveDataOffline_true_files sd e ts data hsave]
        simp
    · intro hsave
      simp [sendSensorData, hd, hfail, hsave]

theorem sendSensorData_outcomes_witness :
    ((sendSensorData (fun _ => ⟨500, "err"⟩) "https://u" "d" "25.4" "2025-01-01 10:00:00"
        ⟨true, true, []⟩ 0 0 7).outcome = some Outcome.Delivered
      ↔ (((fun (_ : String) => (⟨500, "err"⟩ : HttpResp)) "x").code = 200
          ∧ containsTrue ((fun (_ : String) => (⟨500, "err"⟩ : HttpResp)) "x").body = true))
    ∧ (sendSensorData (fun _ => ⟨500, "err"⟩) "https://u" "d" "25.4" "2025-01-01 10:00:00"
        ⟨true, true, []⟩ 0 0 7).outcome = some Outcome.QueuedOffline := by
  have h := sendSensorData_outcomes (fun _ => ⟨500, "err"⟩) "https://u" "d" "25.4"
    "2025-01-01 10:00:00" ⟨true, true, []⟩ 0 0 7 (by decide)
  constructor
  · exact h.1
  · exact ((h.2 (by decide)).2.1 (by decide)).1

/-! ## C2: credential store invariants and update rules -/

theorem evictWhileFull_length (l : List WifiNet) :
    (evictWhileFull l).length < MAX_WIFI_NETWORKS_SAVED := by
  induction l with
  | nil => simp [evictWhileFull, MAX_WIFI_NETWORKS_SAVED]
  | cons x xs ih =>
    by_cases h : xs.length + 1 ≥ MAX_WIFI_NETWORKS_SAVED
    · simpa [evictWhileFull, h] using ih
    · simp only [evictWhileFull, if_neg h, List.length_cons]
      omega

theorem evictWhileFull_suffix (l : List WifiNet) : evictWhileFull l <:+ l := by
  induction l with
  | nil => simp [evictWhileFull]
  | cons x xs ih =>
    by_cases h : xs.length + 1 ≥ MAX_WIFI_NETWORKS_SAVED
    · simp only [evictWhileFull, if_pos h]
      exact ih.trans (List.suffix_cons x xs)
    · simp [evictWhileFull, h]

theorem evictWhileFull_of_lt (l : List WifiNet)
    (h : l.length < MAX_WIFI_NETWORKS_SAVED) : evictWhileFull l = l := by
  cases l with
  | nil => rfl
  | cons x xs =>
    have : ¬ xs.length + 1 ≥ MAX_WIFI_NETWORKS_SAVED := by
      simp only [List.length_cons] at h; omega
    simp [evictWhileFull, this]

theorem evictWhileFull_of_full (l : List WifiNet)
    (h : l.length = MAX_WIFI_NETWORKS_SAVED) : evictWhileFull l = l.tail := by
  cases l with
  | nil => simp [MAX_WIFI_NETWORKS_SAVED] at h
  | cons x xs =>
    have hx : xs.length + 1 ≥ MAX_WIFI_NETWORKS_SAVED := by
      simp only [List.length_cons] at h; omega
    have hlt : xs.length < MAX_WIFI_NETWORKS_SAVED := by
      simp only [List.length_cons] at h; omega
    simp [evictWhileFull, hx, evictWhileFull_of_lt xs hlt]

theorem updatePassword_map_s (ssid pass : String) (l : List WifiNet) :
    (updatePassword ssid pass l).map WifiNet.s = l.map WifiNet.s := by
  induction l with
  | nil => rfl
  | cons c cs ih =>
    by_cases h : c.s = ssid
    · simp [updatePassword, h]
    · simp [updatePassword, h, ih]

theorem updatePassword_length (ssid pass : String) (l : List WifiNet) :
    (updatePassword ssid pass l).length = l.length := by
  have := congrArg List.length (updatePassword_map_s ssid pass l)
  simpa using this

theorem updatePassword_find (ssid pass : String) (l : List WifiNet)
    (h : hasSsid l ssid = true) :
    (updatePassword ssid pass l).find? (fun c => c.s == ssid) = some ⟨ssid, pass⟩ := by
  induction l with
  | nil => simp [hasSsid] at h
  | cons c cs ih =>
    by_cases hc : c.s = ssid
    · simp [updatePassword, hc, List.find?]
    · have hcs : hasSsid cs ssid = true := by
        simp only [hasSsid, List.any_cons, Bool.or_eq_true] at h
        rcases h with h | h
        · exact absurd (by simpa using h) hc
        · simpa [hasSsid] using h
      have hne : (c.s == ssid) = false := by simpa using hc
      simp [updatePassword, hc, List.find?, hne, ih hcs]

theorem updatePassword_mem_of_ne (ssid pass : String) (l : List WifiNet)
    (c : WifiNet) (hc : c ∈ l) (hne : c.s ≠ ssid) :
    c ∈ updatePassword ssid pass l := by
  induction l with
  | nil => simp at hc
  | cons d ds ih =>
    by_cases hd : d.s = ssid
    · rcases List.mem_cons.mp hc with rfl | hmem
      · exact absurd hd hne
      · simp only [updatePassword, if_pos hd]
        exact List.mem_cons_of_mem _ hmem
    · rcases List.mem_cons.mp hc with rfl | hmem
      · simp only [updatePassword, if_neg hd]
        exact List.mem_cons_self _ _
      · simp only [updatePassword, if_neg hd]
        exact List.mem_cons_of_mem _ (ih hmem)

theorem hasSsid_false_not_mem (nets : List WifiNet) (ssid : String)
    (h : hasSsid nets ssid = false) : ssid ∉ nets.map WifiNet.s := by
  intro hmem
  rcases List.mem_map.mp hmem with ⟨c, hc, hcs⟩
  have : nets.any (fun c => c.s == ssid) = true :=
    List.any_eq_true.mpr ⟨c, hc, by simp [hcs]⟩
  simp [hasSsid, this] at h

theorem saveNetworkToMemory_inv (nets : List WifiNet) (ssid pass : String)
    (h : CredInv nets) : CredInv (saveNetworkToMemory nets ssid pass) := by
  rcases h with ⟨hlen, hnodup⟩
  by_cases h0 : ssid.length = 0
  · simpa [saveNetworkToMemory, h0] using ⟨hlen, hnodup⟩
  · by_cases hfound : hasSsid nets ssid = true
    · refine ⟨?_, ?_⟩
      · simp [saveNetworkToMemory, h0, hfound, updatePassword_length, hlen]
      · simpa [saveNetworkToMemory, h0, hfound, updatePassword_map_s] using hnodup
    · simp only [Bool.not_eq_true] at hfound
      have hsuffix := evictWhileFull_suffix nets
      have hsub : List.Sublist ((evictWhileFull nets).map WifiNet.s) (nets.map WifiNet.s) :=
        (hsuffix.sublist).map WifiNet.s
      have hnodup' : ((evictWhileFull nets).map WifiNet.s).Nodup := hnodup.sublist hsub
      have hnotmem : ssid ∉ (evictWhileFull nets).map WifiNet.s := by
        intro hmem
        exact hasSsid_false_not_mem nets ssid hfound
          (hsub.subset hmem)
      refine ⟨?_, ?_⟩
      · have := evictWhileFull_length nets
        simp only [saveNetworkToMemory, h0, hfound, if_neg h0, Bool.false_eq_true, if_false,
          List.length_append, List.length_cons, List.length_nil]
        omega
      · simp only [saveNetworkToMemory, h0, hfound, if_neg h0, Bool.false_eq_true, if_false,
          List.map_append, List.map_cons, List.map_nil]
        rw [List.nodup_append]
        refine ⟨hnodup', by simp, ?_⟩
        intro a ha hb
        simp only [List.mem_cons, List.not_mem_nil, or_false] at hb
        subst hb
        exact hnotmem ha

/-- C2: For every sequence of upsert(ssid, password) calls on the
Credential Store: the stored sequence never holds more than 5 entries and
ssid values stay unique; an upsert with an ssid already present
overwrites that entry's password in place without changing the count or
the entry's position; an upsert with a new ssid while at capacity removes
the oldest-inserted entry (index 0) before appending the new one at the
end; an upsert with an empty ssid changes nothing. -/
theorem saveNetworkToMemory_spec :
    (∀ ops : List (String × String),
      CredInv (ops.foldl (fun acc op => saveNetworkToMemory acc op.1 op.2) []))
    ∧ (∀ (nets : List WifiNet) (ssid pass : String),
        ssid.length ≠ 0 → hasSsid nets ssid = true →
        (saveNetworkToMemory nets ssid pass).map WifiNet.s = nets.map WifiNet.s
        ∧ (saveNetworkToMemory nets ssid pass).length = nets.length
        ∧ (saveNetworkToMemory nets ssid pass).find? (fun c => c.s == ssid)
            = some ⟨ssid, pass⟩
        ∧ (∀ c ∈ nets, c.s ≠ ssid → c ∈ saveNetworkToMemory nets ssid pass))
    ∧ (∀ (nets : List WifiNet) (ssid pass : String),
        ssid.length ≠ 0 → hasSsid nets ssid = false →
        nets.length = MAX_WIFI_NETWORKS_SAVED →
        saveNetworkToMemory nets ssid pass = nets.tail ++ [⟨ssid, pass⟩])
    ∧ (∀ (nets : List WifiNet) (pass : String),
        saveNetworkToMemory nets "" pass = nets) := by
  refine ⟨?_, ?_, ?_, ?_⟩
  · intro ops
    have hstep : ∀ (ops : List (String × String)) (acc : List WifiNet), CredInv acc →
        CredInv (ops.foldl (fun acc op => saveNetworkToMemory acc op.1 op.2) acc) := by
      intro ops
      induction ops with
      | nil => intro acc h; simpa using h
      | cons op ops ih =>
        intro acc h
        exact ih _ (saveNetworkToMemory_inv acc op.1 op.2 h)
    exact hstep ops [] ⟨by simp [MAX_WIFI_NETWORKS_SAVED], by simp⟩
  · intro nets ssid pass h0 hfound
    refine ⟨?_, ?_, ?_, ?_⟩
    · simp [saveNetworkToMemory, h0, hfound, updatePassword_map_s]
    · simp [saveNetworkToMemory, h0, hfound, updatePassword_length]
    · simp [saveNetworkToMemory, h0, hfound, updatePassword_find _ _ _ hfound]
    · intro c hc hne
      simpa [saveNetworkToMemory, h0, hfound]
        using updatePassword_mem_of_ne ssid pass nets c hc hne
  · intro nets ssid pass h0 hfound hfull
    simp [saveNetworkToMemory, h0, hfound, evictWhileFull_of_full nets hfull]
  · intro nets pass
    simp [saveNetworkToMemory]

theorem saveNetworkToMemory_spec_witness :
    CredInv ([(("a", "1") : String × String), ("b", "2")].foldl
      (fun acc op => saveNetworkToMemory acc op.1 op.2) [])
    ∧ (saveNetworkToMemory [⟨"a", "1"⟩, ⟨"b", "2"⟩] "a" "9").map WifiNet.s
        = ([⟨"a", "1"⟩, ⟨"b", "2"⟩] : List WifiNet).map WifiNet.s
    ∧ saveNetworkToMemory
        [⟨"a", "1"⟩, ⟨"b", "2"⟩, ⟨"c", "3"⟩, ⟨"d", "4"⟩, ⟨"e", "5"⟩] "f" "6"
        = [⟨"b", "2"⟩, ⟨"c", "3"⟩, ⟨"d", "4"⟩, ⟨"e", "5"⟩, ⟨"f", "6"⟩]
    ∧ saveNetworkToMemory [⟨"a", "1"⟩] "" "x" = [⟨"a", "1"⟩] := by
  refine ⟨?_, ?_, ?_, ?_⟩
  · exact saveNetworkToMemory_spec.1 [("a", "1"), ("b", "2")]
  · exact (saveNetworkToMemory_spec.2.1 [⟨"a", "1"⟩, ⟨"b", "2"⟩] "a" "9"
      (by decide) (by decide)).1
  · exact saveNetworkToMemory_spec.2.2.1
      [⟨"a", "1"⟩, ⟨"b", "2"⟩, ⟨"c", "3"⟩, ⟨"d", "4"⟩, ⟨"e", "5"⟩] "f" "6"
      (by decide) (by decide) (by decide)
  · exact saveNetworkToMemory_spec.2.2.2 [⟨"a", "1"⟩] "x"

/-! ## C4: clock-aligned telemetry scheduling -/

theorem clockRun_no_fire_same (uI m : Nat) (ts : List (Option Nat))
    (h : ∀ x ∈ ts, x = some m) :
    (clockRun uI (some m) ts).1.count true = 0 := by
  induction ts with
  | nil => rfl
  | cons t ts ih =>
    have ht : t = some m := h t (by simp)
    subst ht
    have hstep : clockTick uI (some m) (some m) = (false, some m) := by
      simp [clockTick]
    simp [clockRun, hstep, ih (fun x hx => h x (by simp [hx]))]

theorem clockRun_atMostOnce (uI m : Nat) (ts : List (Option Nat)) :
    ∀ lastMin, (∀ x ∈ ts, x = some m) → (clockRun uI lastMin ts).1.count true ≤ 1 := by
  induction ts with
  | nil => intro lastMin _; simp [clockRun]
  | cons t ts ih =>
    intro lastMin h
    have ht : t = some m := h t (by simp)
    subst ht
    have hrest : ∀ x ∈ ts, x = some m := fun x hx => h x (by simp [hx])
    by_cases hc : m % minuteIntervalOf uI = 0 ∧ some m ≠ lastMin
    · have hstep : clockTick uI lastMin (some m) = (true, some m) := by
        simp [clockTick, hc]
      simp [clockRun, hstep, clockRun_no_fire_same uI m ts hrest]
    · have hstep : clockTick uI lastMin (some m) = (false, lastMin) := by
        simp only [clockTick, if_neg hc]
      simp only [clockRun, hstep]
      simpa using ih lastMin hrest

/-- C4: In ClockAligned mode with a valid time reference, the Telemetry
Scheduler fires only when `(current_minute mod max(1, update_interval / 60)) == 0`
and the current minute differs from the last minute that fired, so for
every qualifying minute it fires at most once regardless of how many
scheduler ticks occur within that minute; in particular with
update_interval 300 it never fires twice for the same minute value. -/
theorem clockAligned_fires_at_most_once_per_minute :
    (∀ uI : Nat, minuteIntervalOf uI = max 1 (uI / 60))
    ∧ (∀ (uI : Nat) (lastMin : Option Nat) (m : Nat),
        (clockTick uI lastMin (some m)).1 = true →
        m % minuteIntervalOf uI = 0 ∧ some m ≠ lastMin)
    ∧ (∀ (uI m : Nat) (lastMin : Option Nat) (ts : List (Option Nat)),
        (∀ x ∈ ts, x = some m) → (clockRun uI lastMin ts).1.count true ≤ 1)
    ∧ (∀ (lastMin : Option Nat) (m : Nat),
        (clockTick 300 lastMin (some m)).1 = true → m % 5 = 0) := by
  refine ⟨?_, ?_, ?_, ?_⟩
  · intro uI
    by_cases h : uI / 60 < 1
    · have h0 : uI / 60 = 0 := by omega
      simp [minuteIntervalOf, h0]
    · have h1 : 1 ≤ uI / 60 := by omega
      simp only [minuteIntervalOf, if_neg h]
      exact (Nat.max_eq_right h1).symm
  · intro uI lastMin m hfire
    by_cases hc : m % minuteIntervalOf uI = 0 ∧ some m ≠ lastMin
    · exact hc
    · simp only [clockTick, if_neg hc] at hfire
      exact absurd hfire (by decide)
  · intro uI m lastMin ts h
    exact clockRun_atMostOnce uI m ts lastMin h
  · intro lastMin m hfire
    by_cases hc : m % minuteIntervalOf 300 = 0 ∧ some m ≠ lastMin
    · have h5 : minuteIntervalOf 300 = 5 := by decide
      rw [h5] at hc
      exact hc.1
    · simp only [clockTick, if_neg hc] at hfire
      exact absurd hfire (by decide)

theorem clockAligned_fires_at_most_once_per_minute_witness :
    minuteIntervalOf 300 = max 1 (300 / 60)
    ∧ ((clockTick 300 none (some 5)).1 = true → 5 % minuteIntervalOf 300 = 0 ∧ some 5 ≠ none)
    ∧ (clockRun 300 none [some 5, some 5, some 5]).1.count true ≤ 1
    ∧ 5 % 5 = 0 := by
  refine ⟨?_, ?_, ?_, ?_⟩
  · exact clockAligned_fires_at_most_once_per_minute.1 300
  · exact clockAligned_fires_at_most_once_per_minute.2.1 300 none 5
  · exact clockAligned_fires_at_most_once_per_minute.2.2.1 300 5 none
      [some 5, some 5, some 5] (by decide)
  · exact clockAligned_fires_at_most_once_per_minute.2.2.2 none 5 (by decide)

/-! ## C5 and C8: the liveness watchdog

`lastWatchdogTime` is reset not only by inbound messages (`onWrite`,
line 529) but also by `sendSensorData` after a valid sensor read
(line 452), by the connect callback, and after each paused long-running
operation.  Hence a session with *no inbound messages* for more than 3
seconds is not necessarily terminated.
-/

/-- C5 counterexample: a connected, unpaused session whose client sent no
inbound message at all (the only reset since the connect at time 0 is a
telemetry send at t = 2000) has seen no inbound activity for 4000 ms >
3000 ms at the tick at t = 4000, yet the watchdog does not terminate it,
refuting "forcibly terminates the session on its next tick". -/
theorem watchdog_inbound_only_counterexample :
    hasInbound [WEvent.telemetry 2000, WEvent.tick 4000] = false
    ∧ 4000 - 0 > WATCHDOG_TIMEOUT
    ∧ (runEvs ⟨true, false, 0⟩ [WEvent.telemetry 2000, WEvent.tick 4000]).connected = true := by
  decide

/-- C5 (amended): While a control-channel session is connected and the
paused flag is not set, if no watchdog-timestamp reset — inbound message,
session connect, telemetry send with valid sensor data, or completion of
a paused operation — has been observed for longer than 3 seconds, the
Main Scheduler forcibly terminates the session on its next tick; while
the paused flag is set (queue drain, scan, provisioning) the session is
never terminated by the watchdog. -/
theorem watchdog_terminates_stale_session
    (s : Sess) (t : Nat) :
    (s.connected = true → s.paused = false → t - s.last > WATCHDOG_TIMEOUT →
      (tickW s t).connected = false)
    ∧ (s.paused = true → tickW s t = s) := by
  constructor
  · intro hc hp hgt
    have hfire : watchdogFires s.connected s.paused t s.last = true := by
      simp [watchdogFires, hc, hp, hgt]
    simp [tickW, hfire]
  · intro hp
    have hfire : watchdogFires s.connected s.paused t s.last = false := by
      simp [watchdogFires, hp]
    simp [tickW, hfire]

theorem watchdog_terminates_stale_session_witness :
    (tickW ⟨true, false, 0⟩ 4000).connected = false
    ∧ tickW ⟨true, true, 0⟩ 4000 = ⟨true, true, 0⟩ := by
  constructor
  · exact (watchdog_terminates_stale_session ⟨true, false, 0⟩ 4000).1 rfl rfl (by decide)
  · exact (watchdog_terminates_stale_session ⟨true, true, 0⟩ 4000).2 rfl

theorem ticks_no_fire (ts : List Nat) (s : Sess)
    (h : ∀ u ∈ ts, u ≤ s.last + WATCHDOG_TIMEOUT) :
    (ts.map WEvent.tick).foldl stepEv s = s := by
  induction ts with
  | nil => rfl
  | cons u us ih =>
    have hu : ¬ u - s.last > WATCHDOG_TIMEOUT := by
      have := h u (by simp); omega
    have hfire : watchdogFires s.connected s.paused u s.last = false := by
      simp [watchdogFires, hu]
    have hstep : stepEv s (WEvent.tick u) = s := by
      simp [stepEv, tickW, hfire]
    rw [List.map_cons, List.foldl_cons, hstep]
    exact ih (fun v hv => h v (by simp [hv]))

theorem roundEvents_noInbound (rounds : List (Nat × List Nat)) :
    hasInbound (roundEvents rounds) = false := by
  induction rounds with
  | nil => rfl
  | cons r rs ih =>
    simp only [roundEvents, hasInbound, List.any_cons, List.any_append, List.any_map]
    simp only [hasInbound] at ih
    simp [isInbound, ih]

theorem runEvs_rounds_connected (rounds : List (Nat × List Nat)) :
    ∀ l0 : Nat, (∀ r ∈ rounds, ∀ u ∈ r.2, u ≤ r.1 + WATCHDOG_TIMEOUT) →
    (runEvs ⟨true, false, l0⟩ (roundEvents rounds)).connected = true := by
  induction rounds with
  | nil => intro l0 _; rfl
  | cons r rs ih =>
    intro l0 h
    have hstep : stepEv ⟨true, false, l0⟩ (WEvent.telemetry r.1) = ⟨true, false, r.1⟩ := rfl
    have hticks : (r.2.map WEvent.tick).foldl stepEv ⟨true, false, r.1⟩ = ⟨true, false, r.1⟩ :=
      ticks_no_fire r.2 ⟨true, false, r.1⟩ (h r (by simp))
    show ((roundEvents (r :: rs)).foldl stepEv ⟨true, false, l0⟩).connected = true
    simp only [roundEvents, List.foldl_cons, hstep, List.foldl_append, hticks]
    exact ih r.1 (fun q hq => h q (by simp [hq]))

/-- C8: A successful sensor read followed by a delivery attempt resets the
watchdog activity timestamp, so while telemetry fires more frequently
than every 3 seconds a connected control-channel session is never
terminated by the watchdog even if the client sends no inbound messages
at all. -/
theorem telemetry_resets_watchdog_keeps_session
    (http : String → HttpResp) (apiUrl devId data ts : String) (sd : SDState)
    (e lw now : Nat) (l0 : Nat) (rounds : List (Nat × List Nat))
    (hd : data.length ≠ 0)
    (hrounds : ∀ r ∈ rounds, ∀ u ∈ r.2, u ≤ r.1 + WATCHDOG_TIMEOUT) :
    (sendSensorData http apiUrl devId data ts sd e lw now).lastW = now
    ∧ hasInbound (roundEvents rounds) = false
    ∧ (runEvs ⟨true, false, l0⟩ (roundEvents rounds)).connected = true := by
  refine ⟨?_, roundEvents_noInbound rounds, runEvs_rounds_connected rounds l0 hrounds⟩
  simp only [sendSensorData, if_neg hd]
  by_cases hok : httpOk (http (buildUrl apiUrl devId data ts)) = true
  · simp [hok]
  · simp only [Bool.not_eq_true] at hok
    simp [hok]

theorem telemetry_resets_watchdog_keeps_session_witness :
    (sendSensorData (fun _ => ⟨200, "true"⟩) "https://u" "d" "25.4"
      "2025-01-01 10:00:00" ⟨true, true, []⟩ 0 0 2000).lastW = 2000
    ∧ hasInbound (roundEvents [(1000, [1500, 3500]), (4000, [5000])]) = false
    ∧ (runEvs ⟨true, false, 0⟩
        (roundEvents [(1000, [1500, 3500]), (4000, [5000])])).connected = true := by
  exact telemetry_resets_watchdog_keeps_session (fun _ => ⟨200, "true"⟩) "https://u" "d"
    "25.4" "2025-01-01 10:00:00" ⟨true, true, []⟩ 0 0 2000 0
    [(1000, [1500, 3500]), (4000, [5000])] (by decide) (by decide)

/-! ## C7: interval validation on patch and load -/

theorem patchName_pres (d : JsonDoc) (st : PatchSt) :
    (patchName d st).c.updateInterval = st.c.updateInterval
    ∧ (patchName d st).out = st.out := by
  cases h : d.name <;> simp [patchName, h]

theorem patchId_pres (d : JsonDoc) (st : PatchSt) :
    (patchId d st).c.updateInterval = st.c.updateInterval
    ∧ (patchId d st).out = st.out := by
  cases h : d.id <;> simp [patchId, h]

theorem patchUrl_pres (d : JsonDoc) (st : PatchSt) :
    (patchUrl d st).c.updateInterval = st.c.updateInterval
    ∧ (patchUrl d st).out = st.out := by
  cases h : d.url <;> simp [patchUrl, h]

theorem patchNtp_pres (d : JsonDoc) (st : PatchSt) :
    (patchNtp d st).c.updateInterval = st.c.updateInterval
    ∧ (patchNtp d st).out = st.out := by
  cases h : d.ntp <;> simp [patchNtp, h]

theorem patchMode_pres (d : JsonDoc) (st : PatchSt) :
    (patchMode d st).c.updateInterval = st.c.updateInterval
    ∧ (patchMode d st).out = st.out := by
  cases h : d.mode with
  | none => simp [patchMode, h]
  | some m =>
    by_cases hm : m = 0 ∨ m = 1 <;> simp [patchMode, h, hm]

theorem patchSp1_pres (conn : Bool) (d : JsonDoc) (st : PatchSt) :
    (patchSp1 conn d st).c.updateInterval = st.c.updateInterval
    ∧ ∀ n ∈ st.out, n ∈ (patchSp1 conn d st).out := by
  cases h : d.sp1 with
  | none => simp [patchSp1, h]
  | some q =>
    by_cases hq : validateSetpoint q = true
    · simp [patchSp1, h, hq]
    · simp only [Bool.not_eq_true] at hq
      constructor
      · simp [patchSp1, h, hq]
      · intro n hn
        simp only [patchSp1, h, hq, Bool.false_eq_true, if_false]
        exact List.mem_append_left _ hn

theorem patchSp2_pres (conn : Bool) (d : JsonDoc) (st : PatchSt) :
    (patchSp2 conn d st).c.updateInterval = st.c.updateInterval
    ∧ ∀ n ∈ st.out, n ∈ (patchSp2 conn d st).out := by
  cases h : d.sp2 with
  | none => simp [patchSp2, h]
  | some q =>
    by_cases hq : validateSetpoint q = true
    · simp [patchSp2, h, hq]
    · simp only [Bool.not_eq_true] at hq
      constructor
      · simp [patchSp2, h, hq]
      · intro n hn
        simp only [patchSp2, h, hq, Bool.false_eq_true, if_false]
        exact List.mem_append_left _ hn

theorem patchInt_invalid (conn : Bool) (d : JsonDoc) (st : PatchSt) (v : Int)
    (hv : d.intv = some v) (hval : validateInterval v = false) :
    (patchInt conn d st).c.updateInterval = st.c.updateInterval
    ∧ (patchInt conn d st).out = st.out ++ safeNotify conn Notif.errInterval := by
  simp [patchInt, hv, hval]

theorem patchInt_valid (conn : Bool) (d : JsonDoc) (st : PatchSt) (v : Int)
    (hv : d.intv = some v) (hval : validateInterval v = true) :
    (patchInt conn d st).c.updateInterval = v := by
  simp [patchInt, hv, hval]

theorem patchTail_pres (conn : Bool) (d : JsonDoc) (st : PatchSt) :
    (patchSp2 conn d (patchSp1 conn d (patchMode d st))).c.updateInterval
      = st.c.updateInterval
    ∧ ∀ n ∈ st.out, n ∈ (patchSp2 conn d (patchSp1 conn d (patchMode d st))).out := by
  obtain ⟨hm1, hm2⟩ := patchMode_pres d st
  obtain ⟨hs1, hs2⟩ := patchSp1_pres conn d (patchMode d st)
  obtain ⟨ht1, ht2⟩ := patchSp2_pres conn d (patchSp1 conn d (patchMode d st))
  constructor
  · rw [ht1, hs1, hm1]
  · intro n hn
    exact ht2 _ (hs2 _ (by rw [hm2]; exact hn))

theorem patchHead_pres (d : JsonDoc) (c0 : Config) :
    (patchNtp d (patchUrl d (patchId d (patchName d ⟨c0, false, false, []⟩)))).c.updateInterval
      = c0.updateInterval
    ∧ (patchNtp d (patchUrl d (patchId d (patchName d ⟨c0, false, false, []⟩)))).out = [] := by
  obtain ⟨h11, h12⟩ := patchName_pres d ⟨c0, false, false, []⟩
  obtain ⟨h21, h22⟩ := patchId_pres d (patchName d ⟨c0, false, false, []⟩)
  obtain ⟨h31, h32⟩ := patchUrl_pres d (patchId d (patchName d ⟨c0, false, false, []⟩))
  obtain ⟨h41, h42⟩ := patchNtp_pres d (patchUrl d (patchId d (patchName d ⟨c0, false, false, []⟩)))
  exact ⟨by rw [h41, h31, h21, h11], by rw [h42, h32, h22, h12]⟩

theorem applyPatch_interval_invalid (conn : Bool) (d : JsonDoc) (c0 : Config) (v : Int)
    (hv : d.intv = some v) (hval : validateInterval v = false) :
    (applyPatch conn d c0).c.updateInterval = c0.updateInterval
    ∧ (conn = true → Notif.errInterval ∈ (applyPatch conn d c0).out) := by
  have hhead := patchHead_pres d c0
  have hint := patchInt_invalid conn d
    (patchNtp d (patchUrl d (patchId d (patchName d ⟨c0, false, false, []⟩)))) v hv hval
  have htail := patchTail_pres conn d
    (patchInt conn d (patchNtp d (patchUrl d (patchId d (patchName d ⟨c0, false, false, []⟩)))))
  unfold applyPatch
  constructor
  · rw [htail.1, hint.1, hhead.1]
  · intro hconn
    apply htail.2
    rw [hint.2, hhead.2]
    simp [safeNotify, hconn]

theorem applyPatch_interval_valid (conn : Bool) (d : JsonDoc) (c0 : Config) (v : Int)
    (hv : d.intv = some v) (hval : validateInterval v = true) :
    (applyPatch conn d c0).c.updateInterval = v := by
  have hint := patchInt_valid conn d
    (patchNtp d (patchUrl d (patchId d (patchName d ⟨c0, false, false, []⟩)))) v hv hval
  have htail := patchTail_pres conn d
    (patchInt conn d (patchNtp d (patchUrl d (patchId d (patchName d ⟨c0, false, false, []⟩)))))
  unfold applyPatch
  rw [htail.1, hint]

/-- C7: For every interval value outside [1, 86400]: a configuration
patch carrying that value is rejected with an error response and the
stored update interval is unchanged, and a persisted record carrying that
value is loaded with the interval replaced by the default 60; for every
value inside the range, the value is accepted as-is. -/
theorem interval_validation_spec :
    (∀ (s : DevState) (now : Nat) (wifi : Bool) (d : JsonDoc) (v : Int),
      d.action = none → d.intv = some v → validateInterval v = false →
      s.savedCfg = s.cfg → s.deviceConnected = true →
      (onWrite s now wifi (.parsed d)).st.cfg.updateInterval = s.cfg.updateInterval
      ∧ (onWrite s now wifi (.parsed d)).st.savedCfg.updateInterval = s.cfg.updateInterval
      ∧ Notif.errInterval ∈ (onWrite s now wifi (.parsed d)).out)
    ∧ (∀ (s : DevState) (now : Nat) (wifi : Bool) (d : JsonDoc) (v : Int),
        d.action = none → d.intv = some v → validateInterval v = true →
        (onWrite s now wifi (.parsed d)).st.cfg.updateInterval = v)
    ∧ (∀ (cur : Config) (d : JsonDoc) (v : Int),
        d.intv = some v → validateInterval v = false →
        (loadConfig cur (some d)).updateInterval = 60)
    ∧ (∀ (cur : Config) (d : JsonDoc) (v : Int),
        d.intv = some v → validateInterval v = true →
        (loadConfig cur (some d)).updateInterval = v)
    ∧ (∀ v : Int, validateInterval v = true ↔ (1 ≤ v ∧ v ≤ 86400)) := by
  refine ⟨?_, ?_, ?_, ?_, ?_⟩
  · intro s now wifi d v ha hv hval hsync hconn
    have hcf : hasConfigField d = true := by simp [hasConfigField, hv]
    have hinv := applyPatch_interval_invalid s.deviceConnected d s.cfg v hv hval
    by_cases hch : (applyPatch s.deviceConnected d s.cfg).changed = true
    · refine ⟨?_, ?_, ?_⟩
      · simp [onWrite, ha, hcf, hch, hinv.1]
      · simp [onWrite, ha, hcf, hch, hinv.1]
      · simp only [onWrite, ha, hcf, if_true, hch]
        exact List.mem_append_left _ (hinv.2 hconn)
    · simp only [Bool.not_eq_true] at hch
      refine ⟨?_, ?_, ?_⟩
      · simp [onWrite, ha, hcf, hch, hinv.1]
      · simp [onWrite, ha, hcf, hch, hsync]
      · simp only [onWrite, ha, hcf, if_true, hch]
        exact hinv.2 hconn
  · intro s now wifi d v ha hv hval
    have hcf : hasConfigField d = true := by simp [hasConfigField, hv]
    have hvalid := applyPatch_interval_valid s.deviceConnected d s.cfg v hv hval
    by_cases hch : (applyPatch s.deviceConnected d s.cfg).changed = true
    · simp [onWrite, ha, hcf, hch, hvalid]
    · simp only [Bool.not_eq_true] at hch
      simp [onWrite, ha, hcf, hch, hvalid]
  · intro cur d v hv hval
    simp [loadConfig, hv, hval]
  · intro cur d v hv hval
    simp [loadConfig, hv, hval]
  · intro v
    simp [validateInterval, MIN_UPDATE_INTERVAL, MAX_UPDATE_INTERVAL]

theorem interval_validation_spec_witness :
    (onWrite ⟨defaultConfig, defaultConfig, [], true, false, false, false, 0, "", ""⟩ 5 true
      (.parsed ⟨none, none, none, none, none, some 999999, none, none, none, none, none⟩)
      ).st.cfg.updateInterval = defaultConfig.updateInterval
    ∧ Notif.errInterval ∈ (onWrite ⟨defaultConfig, defaultConfig, [], true, false, false, false,
        0, "", ""⟩ 5 true
      (.parsed ⟨none, none, none, none, none, some 999999, none, none, none, none, none⟩)).out
    ∧ (onWrite ⟨defaultConfig, defaultConfig, [], true, false, false, false, 0, "", ""⟩ 5 true
      (.parsed ⟨none, none, none, none, none, some 300, none, none, none, none, none⟩)
      ).st.cfg.updateInterval = 300
    ∧ (loadConfig defaultConfig
        (some ⟨none, none, none, none, none, some 999999, none, none, none, none, none⟩)
      ).updateInterval = 60
    ∧ (loadConfig defaultConfig
        (some ⟨none, none, none, none, none, some 300, none, none, none, none, none⟩)
      ).updateInterval = 300
    ∧ (validateInterval 300 = true ↔ (1 ≤ (300 : Int) ∧ (300 : Int) ≤ 86400)) := by
  refine ⟨?_, ?_, ?_, ?_, ?_, ?_⟩
  · exact (interval_validation_spec.1 ⟨defaultConfig, defaultConfig, [], true, false, false,
      false, 0, "", ""⟩ 5 true
      ⟨none, none, none, none, none, some 999999, none, none, none, none, none⟩ 999999
      rfl rfl (by decide) rfl rfl).1
  · exact (interval_validation_spec.1 ⟨defaultConfig, defaultConfig, [], true, false, false,
      false, 0, "", ""⟩ 5 true
      ⟨none, none, none, none, none, some 999999, none, none, none, none, none⟩ 999999
      rfl rfl (by decide) rfl rfl).2.2
  · exact interval_validation_spec.2.1 ⟨defaultConfig, defaultConfig, [], true, false, false,
      false, 0, "", ""⟩ 5 true
      ⟨none, none, none, none, none, some 300, none, none, none, none, none⟩ 300
      rfl rfl (by decide)
  · exact interval_validation_spec.2.2.1 defaultConfig
      ⟨none, none, none, none, none, some 999999, none, none, none, none, none⟩ 999999
      rfl (by decide)
  · exact interval_validation_spec.2.2.2.1 defaultConfig
      ⟨none, none, none, none, none, some 300, none, none, none, none, none⟩ 300
      rfl (by decide)
  · exact interval_validation_spec.2.2.2.2 300

/-! ## C9: empty or whitespace-only ssid in a provisioning message -/

/-- C9: A provisioning message whose ssid field is empty or consists only
of whitespace after trimming sets no pending provisioning request: no
connection attempt is made, no credential is stored, and no response is
emitted for that message. -/
theorem empty_ssid_provisioning_ignored
    (s : DevState) (now : Nat) (wifi : Bool) (d : JsonDoc) (raw : String)
    (hrec : s.wifiConfigReceived = false)
    (ha : d.action = none) (hcf : hasConfigField d = false)
    (hs : d.ssid = some raw) (ht : (strTrim raw).length = 0) :
    (onWrite s now wifi (.parsed d)).st.wifiConfigReceived = false
    ∧ (onWrite s now wifi (.parsed d)).out = []
    ∧ (onWrite s now wifi (.parsed d)).restart = false
    ∧ (onWrite s now wifi (.parsed d)).st.savedNets = s.savedNets
    ∧ (∀ (connectOk : Bool) (nets : List WifiNet),
        loopWifiConnect (onWrite s now wifi (.parsed d)).st.wifiConfigReceived
          (onWrite s now wifi (.parsed d)).st.targetSSID
          (onWrite s now wifi (.parsed d)).st.targetPass connectOk nets
          = (false, nets)) := by
  have hlen : ¬ (strTrim raw).length > 0 := by omega
  refine ⟨?_, ?_, ?_, ?_, ?_⟩
  · simp [onWrite, ha, hcf, hs, hlen, hrec]
  · simp [onWrite, ha, hcf, hs, hlen]
  · simp [onWrite, ha, hcf, hs, hlen]
  · simp [onWrite, ha, hcf, hs, hlen]
  · intro connectOk nets
    have hrec' : (onWrite s now wifi (.parsed d)).st.wifiConfigReceived = false := by
      simp [onWrite, ha, hcf, hs, hlen, hrec]
    simp [loopWifiConnect, hrec']

theorem empty_ssid_provisioning_ignored_witness :
    (onWrite ⟨defaultConfig, defaultConfig, [⟨"home", "pw"⟩], true, false, false, false, 0,
        "", ""⟩ 5 true
      (.parsed ⟨none, none, none, none, none, none, none, none, none, some "   ", none⟩)
      ).st.wifiConfigReceived = false
    ∧ (onWrite ⟨defaultConfig, defaultConfig, [⟨"home", "pw"⟩], true, false, false, false, 0,
        "", ""⟩ 5 true
      (.parsed ⟨none, none, none, none, none, none, none, none, none, some "   ", none⟩)).out = []
    ∧ (onWrite ⟨defaultConfig, defaultConfig, [⟨"home", "pw"⟩], true, false, false, false, 0,
        "", ""⟩ 5 true
      (.parsed ⟨none, none, none, none, none, none, none, none, none, some "   ", none⟩)
      ).st.savedNets = [⟨"home", "pw"⟩]
    ∧ loopWifiConnect false "" "" true [⟨"home", "pw"⟩] = (false, [⟨"home", "pw"⟩]) := by
  have h := empty_ssid_provisioning_ignored
    ⟨defaultConfig, defaultConfig, [⟨"home", "pw"⟩], true, false, false, false, 0, "", ""⟩
    5 true ⟨none, none, none, none, none, none, none, none, none, some "   ", none⟩ "   "
    rfl rfl (by decide) rfl (by decide)
  exact ⟨h.1, h.2.1, h.2.2.2.1, h.2.2.2.2 true [⟨"home", "pw"⟩]⟩
